import Mathlib

/-!
Shallow embedding of the video streaming server (`src/main.py`) of the
Video-Streaming-Server repository, together with proofs about the claims
of its specification.

Files are modelled as lists of bytes (`List Nat`); the database is a list
of `VideoRec`; the upload directory is an association list from filename
to file contents.  Each HTTP handler becomes a pure function that takes
the relevant state and returns the response outcome together with the
updated state, so that every mutation the Python code performs is visible
in the Lean result.
-/

namespace VideoServer

/-- `CHUNK_SIZE = 1024 * 1024` from main.py (1 MiB chunks). -/
def CHUNK_SIZE : Nat := 1024 * 1024

/-- The `Video` ORM model of main.py (columns relevant to behaviour;
timestamps omitted). -/
structure VideoRec where
  id : Nat
  title : String
  description : Option String
  filename : String
  original_filename : String
  file_size : Nat
  duration : Option Nat
  thumbnail_path : Option String
  processed : Bool
  processing_status : String
  views : Nat
  user_id : Nat
deriving Repr, DecidableEq

/-- `db.query(Video).filter(Video.id == video_id).first()`. -/
def findVideo (db : List VideoRec) (video_id : Nat) : Option VideoRec :=
  db.find? (fun v => v.id == video_id)

/-- The upload directory: association list from filename to file bytes.
`readFile fs name` is the contents of the file when it exists. -/
def readFile (fs : List (String × List Nat)) (name : String) :
    Option (List Nat) :=
  (fs.find? (fun p => p.1 == name)).map Prod.snd

/-- `video.views += 1; db.commit()` applied to the record with the given id. -/
def incViews (db : List VideoRec) (video_id : Nat) : List VideoRec :=
  db.map (fun v => if v.id == video_id then { v with views := v.views + 1 } else v)

/-- The full-file streaming loop of `stream_video` (main.py lines 353-356):
`while chunk := await f.read(CHUNK_SIZE): yield chunk`, concatenated. -/
def fullLoop (file : List Nat) : List Nat :=
  if h : file.isEmpty then []
  else file.take CHUNK_SIZE ++ fullLoop (file.drop CHUNK_SIZE)
termination_by file.length
decreasing_by
  simp only [List.length_drop]
  have hne : file ≠ [] := by
    intro hnil; rw [hnil] at h; simp at h
  have hpos : 0 < file.length := List.length_pos.mpr hne
  have hc : 0 < CHUNK_SIZE := by norm_num [CHUNK_SIZE]
  omega

/-- The range streaming loop of `iterfile` (main.py lines 332-342),
with a `Nat` remaining count: seek to `pos`, then repeatedly read
`min CHUNK_SIZE remaining` bytes, stopping at end of file or when
`remaining` reaches 0. -/
def rangeLoop (file : List Nat) (pos remaining : Nat) : List Nat :=
  if remaining = 0 then []
  else
    if h : ((file.drop pos).take (min CHUNK_SIZE remaining)).isEmpty then []
    else
      (file.drop pos).take (min CHUNK_SIZE remaining) ++
        rangeLoop file
          (pos + ((file.drop pos).take (min CHUNK_SIZE remaining)).length)
          (remaining - ((file.drop pos).take (min CHUNK_SIZE remaining)).length)
termination_by remaining
decreasing_by
  have hne : (file.drop pos).take (min CHUNK_SIZE remaining) ≠ [] := by
    intro hnil; rw [hnil] at h; simp at h
  have hpos : 0 < ((file.drop pos).take (min CHUNK_SIZE remaining)).length :=
    List.length_pos.mpr hne
  omega

/-- `iterfile` in partial mode: `remaining = end - start + 1` is a Python
int that may be non-positive, in which case the `while remaining > 0`
loop yields nothing; otherwise it behaves as `rangeLoop`. -/
def iterfile (file : List Nat) (start : Nat) (en : Int) : List Nat :=
  rangeLoop file start (en - (start : Int) + 1).toNat

/-- `end = int(byte_range[1]) if byte_range[1] else file_size - 1`. -/
def defEnd (eo : Option Nat) (fsize : Nat) : Int :=
  match eo with
  | some e => (e : Int)
  | none => (fsize : Int) - 1

/-- A streaming response: HTTP status, declared `Content-Length`,
optional `Content-Range` as (start, end, total), and the body bytes
actually yielded by the generator. -/
structure StreamResp where
  status : Nat
  contentLength : Int
  contentRange : Option (Nat × Int × Nat)
  body : List Nat
deriving Repr, DecidableEq

/-- `GET /api/stream/{video_id}` (main.py lines 308-360).  The range, when
present, is the already-parsed pair of optional bounds from the Range
header.  Errors (404) happen before the view-counter increment; any
response carries the updated database. -/
def stream_video (db : List VideoRec) (fs : List (String × List Nat))
    (video_id : Nat) (range : Option (Option Nat × Option Nat)) :
    Except Nat (StreamResp × List VideoRec) :=
  match findVideo db video_id with
  | none => .error 404
  | some video =>
    match readFile fs video.filename with
    | none => .error 404
    | some file =>
      let db2 := incViews db video_id
      let fsize := file.length
      match range with
      | some (so, eo) =>
        let start := so.getD 0
        let en := defEnd eo fsize
        .ok ({ status := 206, contentLength := en - (start : Int) + 1,
               contentRange := some (start, en, fsize),
               body := iterfile file start en }, db2)
      | none =>
        .ok ({ status := 200, contentLength := (fsize : Int),
               contentRange := none, body := fullLoop file }, db2)

/-! ### Upload (main.py lines 215-263) -/

/-- `allowed_extensions = {".mp4", ".avi", ".mov", ".mkv", ".webm", ".flv"}`. -/
def allowed_extensions : List String :=
  [".mp4", ".avi", ".mov", ".mkv", ".webm", ".flv"]

/-- ASCII lower-casing of a character, as `str.lower()` acts on the
ASCII extensions relevant here. -/
def lowerChar (c : Char) : Char :=
  if 'A' ≤ c ∧ c ≤ 'Z' then Char.ofNat (c.toNat + 32) else c

/-- `.lower()` applied to an (ASCII) extension string. -/
def lowerString (s : String) : String := String.mk (s.data.map lowerChar)

/-- The final path component: characters after the last slash. -/
def afterLastSlash (cs : List Char) : List Char :=
  cs.foldl (fun acc c => if c = '/' then [] else acc ++ [c]) []

/-- Index of the last '.' in a character list, when one exists. -/
def lastDotIdx : List Char → Option Nat
  | [] => none
  | c :: cs =>
    match lastDotIdx cs with
    | some i => some (i + 1)
    | none => if c = '.' then some 0 else none

/-- `Path(filename).suffix`: the extension of the final component,
starting at its last dot, empty when the dot is leading, trailing or
absent (Python's `0 < i < len(name) - 1` rule). -/
def pathSuffix (filename : String) : String :=
  match h : lastDotIdx (afterLastSlash filename.data) with
  | some i =>
    if 0 < i ∧ i + 1 < (afterLastSlash filename.data).length then
      String.mk ((afterLastSlash filename.data).drop i)
    else ""
  | none => ""

/-- The mutable state the upload endpoint touches: the uploads directory
and the videos table. -/
structure UploadState where
  files : List (String × List Nat)
  db : List VideoRec
deriving Repr, DecidableEq

/-- The record that `upload_video` inserts (Video(...) with column
defaults: `processed=False`, `processing_status="pending"`, `views=0`). -/
def mkVideoRec (filename unique_filename : String) (file_size : Nat)
    (description : Option String) (title : Option String)
    (uid new_id : Nat) : VideoRec :=
  { id := new_id
    title := title.getD filename
    description := description
    filename := unique_filename
    original_filename := filename
    file_size := file_size
    duration := none
    thumbnail_path := none
    processed := false
    processing_status := "pending"
    views := 0
    user_id := uid }

/-- `POST /api/upload` (main.py lines 215-263).  `chunks` are the chunks
delivered by `file.read(CHUNK_SIZE)` before the stream ends; when
`writeFails` is true the next write raises after those chunks were
written, the exception propagates out of the handler (HTTP 500) and
nothing further happens — in particular the partially written file stays
in `files` and no record is created.  `uniq` stands for the generated
UUID string.  Returns the resulting state and the outcome (new video id
or HTTP error code). -/
def upload_video (st : UploadState) (filename : String)
    (chunks : List (List Nat)) (writeFails : Bool)
    (title description : Option String) (uniq : String)
    (uid new_id : Nat) : UploadState × Except Nat Nat :=
  if allowed_extensions.contains (lowerString (pathSuffix filename)) then
    if writeFails then
      ({ st with
          files := (uniq ++ lowerString (pathSuffix filename), chunks.flatten) :: st.files },
       .error 500)
    else
      ({ files := (uniq ++ lowerString (pathSuffix filename), chunks.flatten) :: st.files
         db := st.db ++
           [mkVideoRec filename (uniq ++ lowerString (pathSuffix filename))
             chunks.flatten.length description title uid new_id] },
       .ok new_id)
  else (st, .error 400)

/-! ### Asynchronous processing (main.py lines 147-176) -/

/-- The status string written by the exception handler:
`video.processing_status = f"failed: {str(e)}"`. -/
def failedStatus (e : String) : String := "failed: " ++ e

/-- `process_video`'s committed record states, in commit order: first the
`processing` commit, then either the completion commit (duration,
processed flag, completed status and thumbnail path set in one commit) or
the failure commit when the worker raises `e` after claiming the record. -/
def process_video (v : VideoRec) (failure : Option String) : List VideoRec :=
  match failure with
  | none =>
    [{ v with processing_status := "processing" },
     { v with
        processing_status := "completed"
        processed := true
        duration := some 120
        thumbnail_path := some ("thumbnails/" ++ v.filename ++ ".jpg") }]
  | some e =>
    [{ v with processing_status := "processing" },
     { v with processing_status := failedStatus e }]

/-- Every committed state of the record that an external observer can
read: the freshly created record followed by the worker's commits. -/
def observableStates (v : VideoRec) (failure : Option String) : List VideoRec :=
  v :: process_video v failure

/-- The record as seen at observation time `t`: the system runs the
worker exactly once per record and no other endpoint writes
`processing_status`, so after the last commit the record stays in its
final committed state. -/
def recordAt (v : VideoRec) (failure : Option String) (t : Nat) : VideoRec :=
  (observableStates v failure).getD
    (min t ((observableStates v failure).length - 1)) v

/-- Terminal statuses: `completed`, or any failure diagnostic. -/
def terminalStatus (s : String) : Prop :=
  s = "completed" ∨ ∃ e, s = failedStatus e

/-! ### Metadata query and deletion (main.py lines 291-305, 363-382) -/

/-- The snapshot returned by `GET /api/video/{video_id}`. -/
structure VideoInfo where
  id : Nat
  title : String
  description : Option String
  duration : Option Nat
  views : Nat
  processed : Bool
deriving Repr, DecidableEq

/-- `GET /api/video/{video_id}` (main.py lines 291-305): returns the
database state it leaves behind together with the outcome. -/
def get_video_info (db : List VideoRec) (video_id : Nat) :
    List VideoRec × Except Nat VideoInfo :=
  match findVideo db video_id with
  | none => (db, .error 404)
  | some v =>
    (db, .ok { id := v.id, title := v.title, description := v.description,
               duration := v.duration, views := v.views, processed := v.processed })

/-- `DELETE /api/video/{video_id}` (main.py lines 363-382): 404 when no
record of this owner matches; otherwise unlink the backing file when it
exists (no error when it is already gone) and delete the record. -/
def delete_video (st : UploadState) (video_id uid : Nat) :
    UploadState × Except Nat String :=
  match st.db.find? (fun v => v.id == video_id && v.user_id == uid) with
  | none => (st, .error 404)
  | some video =>
    ({ files := st.files.filter (fun p => p.1 ≠ video.filename)
       db := st.db.eraseP (fun v => v.id == video_id && v.user_id == uid) },
     .ok "Video deleted successfully")

/-! ### Streaming lemmas -/

/-- The full-file loop yields the whole file. -/
theorem fullLoop_eq (file : List Nat) : fullLoop file = file := by
  induction file using fullLoop.induct with
  | case1 file h =>
    rw [fullLoop]
    simp only [dif_pos h]
    exact (List.isEmpty_iff.mp h).symm
  | case2 file h ih =>
    rw [fullLoop]
    simp only [dif_neg h]
    rw [ih, List.take_append_drop]

/-- The range loop starting at `pos` with `remaining` to go yields exactly
the slice `take remaining (drop pos file)`. -/
theorem rangeLoop_eq (file : List Nat) (pos remaining : Nat) :
    rangeLoop file pos remaining = (file.drop pos).take remaining := by
  induction pos, remaining using rangeLoop.induct file with
  | case1 pos =>
    rw [rangeLoop]
    simp
  | case2 pos remaining h hemp =>
    rw [rangeLoop]
    simp only [if_neg h, dif_pos hemp]
    have hc : min CHUNK_SIZE remaining ≠ 0 := by
      have hck : 0 < CHUNK_SIZE := by norm_num [CHUNK_SIZE]
      omega
    have hnil : file.drop pos = [] := by
      rcases List.take_eq_nil_iff.mp (List.isEmpty_iff.mp hemp) with h1 | h1
      · exact absurd h1 hc
      · exact h1
    rw [hnil]
    simp
  | case3 pos remaining h hemp ih =>
    rw [rangeLoop]
    simp only [if_neg h, dif_neg hemp]
    rw [ih]
    set l := file.drop pos with hl
    set c := min CHUNK_SIZE remaining with hc
    set d := (l.take c).length with hd
    rw [← List.drop_drop, ← hl]
    have hdc : d = min c l.length := by rw [hd]; exact List.length_take _ _
    have h1 : l.take c = l.take d := by
      rcases le_or_lt c l.length with hcl | hcl
      · have hce : d = c := by omega
        rw [hce]
      · have hdl : d = l.length := by omega
        rw [hdl, List.take_length, List.take_of_length_le (by omega)]
    rw [h1, ← List.take_add]
    congr 1
    omega

/-- `iterfile` yields exactly the slice of length `(en - start + 1).toNat`
starting at offset `start`. -/
theorem iterfile_eq (file : List Nat) (start : Nat) (en : Int) :
    iterfile file start en
      = (file.drop start).take (en - (start : Int) + 1).toNat := by
  rw [iterfile, rangeLoop_eq]

/-- The view counters after `incViews`: the target's counter is one more,
every other record's counter is unchanged. -/
theorem incViews_views (db : List VideoRec) (video_id : Nat) :
    (incViews db video_id).map VideoRec.views
      = db.map (fun v => if v.id == video_id then v.views + 1 else v.views) := by
  rw [incViews, List.map_map]
  apply List.map_congr_left
  intro v _
  by_cases hv : v.id = video_id
  · simp [hv]
  · simp [hv]

/-! ### Claims C1-C3: range serving -/

/-- C1 counterexample: a stream request on a 3-byte file whose Range
header parses to (5, 9) — so `start >= totalSize` — is answered by the
code with a 206 partial-content response (not a range-not-satisfiable
condition) and the view counter is incremented from 0 to 1; only the
"zero bytes streamed" part of the claim holds (the body is empty). -/
theorem c1_counterexample :
    stream_video
      [⟨1, "t", none, "f.mp4", "f.mp4", 3, none, none, false, "pending", 0, 7⟩]
      [("f.mp4", [10, 20, 30])] 1 (some (some 5, some 9))
    = .ok ({ status := 206, contentLength := 5,
             contentRange := some (5, 9, 3), body := [] },
           [⟨1, "t", none, "f.mp4", "f.mp4", 3, none, none, false, "pending", 1, 7⟩]) := by
  have hv : findVideo
      [⟨1, "t", none, "f.mp4", "f.mp4", 3, none, none, false, "pending", 0, 7⟩] 1
      = some ⟨1, "t", none, "f.mp4", "f.mp4", 3, none, none, false, "pending", 0, 7⟩ := rfl
  have hf : readFile [("f.mp4", [10, 20, 30])] "f.mp4" = some [10, 20, 30] := rfl
  simp only [stream_video, hv, hf, Option.getD_some]
  rw [iterfile_eq]
  simp [incViews, defEnd]

/-- C1 (amended): for every stream request on an existing video with an
existing backing file whose Range header parses to an unsatisfiable
(start, end) — `start >= totalSize` or `start > end` — the code still
responds 206 (it never signals range-not-satisfiable), zero bytes of the
file are streamed (the body is empty), and the view counter of the
requested video is incremented by one (all other counters unchanged). -/
theorem c1_unsatisfiable_range_amended (db : List VideoRec)
    (fs : List (String × List Nat)) (video_id : Nat) (v : VideoRec)
    (file : List Nat) (so eo : Option Nat)
    (hv : findVideo db video_id = some v)
    (hf : readFile fs v.filename = some file)
    (hbad : file.length ≤ so.getD 0 ∨ defEnd eo file.length < (so.getD 0 : Int)) :
    stream_video db fs video_id (some (so, eo))
      = .ok ({ status := 206,
               contentLength := defEnd eo file.length - (so.getD 0 : Int) + 1,
               contentRange := some (so.getD 0, defEnd eo file.length, file.length),
               body := [] }, incViews db video_id) ∧
    (incViews db video_id).map VideoRec.views
      = db.map (fun w => if w.id == video_id then w.views + 1 else w.views) := by
  constructor
  · have hbody : iterfile file (so.getD 0) (defEnd eo file.length) = [] := by
      rw [iterfile_eq]
      rcases hbad with hb | hb
      · rw [List.drop_eq_nil_of_le hb]
        simp
      · have hz : (defEnd eo file.length - (so.getD 0 : Int) + 1).toNat = 0 := by
          omega
        rw [hz]
        simp
    simp only [stream_video, hv, hf, hbody]
  · exact incViews_views db video_id

/-- C1 witness: concrete instance of the amended claim, on a 3-byte file
with Range parsing to start 7 and a defaulted end. -/
theorem c1_unsatisfiable_range_amended_witness :
    stream_video
      [⟨2, "t", none, "g.mp4", "g.mp4", 3, none, none, false, "pending", 4, 9⟩]
      [("g.mp4", [10, 20, 30])] 2 (some (some 7, none))
      = .ok ({ status := 206,
               contentLength := defEnd none 3 - (7 : Int) + 1,
               contentRange := some (7, defEnd none 3, 3),
               body := [] },
             incViews
               [⟨2, "t", none, "g.mp4", "g.mp4", 3, none, none, false, "pending", 4, 9⟩] 2) ∧
    (incViews
        [⟨2, "t", none, "g.mp4", "g.mp4", 3, none, none, false, "pending", 4, 9⟩] 2).map
        VideoRec.views
      = [(⟨2, "t", none, "g.mp4", "g.mp4", 3, none, none, false, "pending", 4, 9⟩ : VideoRec)].map
          (fun w => if w.id == 2 then w.views + 1 else w.views) :=
  c1_unsatisfiable_range_amended _ _ 2 _ [10, 20, 30] (some 7) none
    rfl rfl (Or.inl (by norm_num))

/-- C2: for `0 ≤ start ≤ end < N`, the partial-mode stream delivers
exactly `end - start + 1` bytes and those bytes are the `[start, end]`
slice of the bytes delivered by a full-file stream of the same file. -/
theorem c2_partial_full_roundtrip (db : List VideoRec)
    (fs : List (String × List Nat)) (video_id : Nat) (v : VideoRec)
    (file : List Nat) (s e : Nat)
    (hv : findVideo db video_id = some v)
    (hf : readFile fs v.filename = some file)
    (hse : s ≤ e) (heN : e < file.length) :
    ∃ respP dbP respF dbF,
      stream_video db fs video_id (some (some s, some e)) = .ok (respP, dbP) ∧
      stream_video db fs video_id none = .ok (respF, dbF) ∧
      respP.body.length = e - s + 1 ∧
      respP.body = (respF.body.drop s).take (e - s + 1) := by
  have htn : (defEnd (some e) file.length - (s : Int) + 1).toNat = e - s + 1 := by
    simp only [defEnd]
    omega
  have hbody : iterfile file s (defEnd (some e) file.length)
      = (file.drop s).take (e - s + 1) := by
    rw [iterfile_eq, htn]
  refine ⟨{ status := 206,
            contentLength := defEnd (some e) file.length - (s : Int) + 1,
            contentRange := some (s, defEnd (some e) file.length, file.length),
            body := iterfile file s (defEnd (some e) file.length) },
          incViews db video_id,
          { status := 200, contentLength := (file.length : Int),
            contentRange := none, body := fullLoop file },
          incViews db video_id, ?_, ?_, ?_, ?_⟩
  · simp only [stream_video, hv, hf, Option.getD_some]
  · simp only [stream_video, hv, hf]
  · rw [hbody]
    simp only [List.length_take, List.length_drop]
    omega
  · rw [hbody, fullLoop_eq]

/-- C2 witness: file of 4 bytes, range [1, 2]. -/
theorem c2_partial_full_roundtrip_witness :
    ∃ respP dbP respF dbF,
      stream_video
        [⟨3, "t", none, "h.mp4", "h.mp4", 4, none, none, false, "pending", 0, 9⟩]
        [("h.mp4", [5, 6, 7, 8])] 3 (some (some 1, some 2)) = .ok (respP, dbP) ∧
      stream_video
        [⟨3, "t", none, "h.mp4", "h.mp4", 4, none, none, false, "pending", 0, 9⟩]
        [("h.mp4", [5, 6, 7, 8])] 3 none = .ok (respF, dbF) ∧
      respP.body.length = 2 - 1 + 1 ∧
      respP.body = (respF.body.drop 1).take (2 - 1 + 1) :=
  c2_partial_full_roundtrip _ _ 3 _ [5, 6, 7, 8] 1 2 rfl rfl
    (by norm_num) (by norm_num)

/-- C3: in full mode (no Range header) on an existing file of size N, the
streaming loop yields exactly N bytes and the declared Content-Length
equals N. -/
theorem c3_full_stream_delivers_all (db : List VideoRec)
    (fs : List (String × List Nat)) (video_id : Nat) (v : VideoRec)
    (file : List Nat)
    (hv : findVideo db video_id = some v)
    (hf : readFile fs v.filename = some file) :
    ∃ resp db2, stream_video db fs video_id none = .ok (resp, db2) ∧
      resp.body.length = file.length ∧
      resp.contentLength = (file.length : Int) := by
  refine ⟨{ status := 200, contentLength := (file.length : Int),
            contentRange := none, body := fullLoop file },
          incViews db video_id, ?_, ?_, ?_⟩
  · simp only [stream_video, hv, hf]
  · rw [fullLoop_eq]
  · rfl

/-- C3 witness: a 3-byte file streamed in full. -/
theorem c3_full_stream_delivers_all_witness :
    ∃ resp db2,
      stream_video
        [⟨4, "t", none, "k.mp4", "k.mp4", 3, none, none, false, "pending", 0, 9⟩]
        [("k.mp4", [1, 2, 3])] 4 none = .ok (resp, db2) ∧
      resp.body.length = ([1, 2, 3] : List Nat).length ∧
      resp.contentLength = (([1, 2, 3] : List Nat).length : Int) :=
  c3_full_stream_delivers_all _ _ 4 _ [1, 2, 3] rfl rfl

/-! ### Claims C4-C6: upload -/

/-- C4: an upload whose lower-cased extension is in the allow-list is
accepted (the handler reaches the write and record creation and reports
the new id); any other extension is rejected with a 400 before any bytes
are written — the state, in particular the uploads directory, is exactly
the one the handler started with. -/
theorem c4_extension_allowlist (st : UploadState) (filename : String)
    (chunks : List (List Nat)) (writeFails : Bool)
    (title description : Option String) (uniq : String) (uid new_id : Nat) :
    (allowed_extensions.contains (lowerString (pathSuffix filename)) = true →
      ∃ st2, upload_video st filename chunks false title description uniq uid new_id
        = (st2, .ok new_id)) ∧
    (allowed_extensions.contains (lowerString (pathSuffix filename)) = false →
      upload_video st filename chunks writeFails title description uniq uid new_id
        = (st, .error 400)) := by
  constructor
  · intro h
    refine ⟨{ files := (uniq ++ lowerString (pathSuffix filename), chunks.flatten) :: st.files,
              db := st.db ++ [mkVideoRec filename
                (uniq ++ lowerString (pathSuffix filename)) chunks.flatten.length
                description title uid new_id] }, ?_⟩
    simp only [upload_video, h]
    rfl
  · intro h
    simp only [upload_video, h]
    rfl

/-- C4 witness: `.MP4` (upper case) is accepted, `.txt` is rejected with
the state returned untouched. -/
theorem c4_extension_allowlist_witness :
    (∃ st2, upload_video ⟨[], []⟩ "movie.MP4" [[1]] false none none "u1-" 5 1
        = (st2, .ok 1)) ∧
    upload_video ⟨[("keep", [9])], []⟩ "notes.txt" [[1]] false none none "u2-" 5 2
        = (⟨[("keep", [9])], []⟩, .error 400) :=
  ⟨(c4_extension_allowlist ⟨[], []⟩ "movie.MP4" [[1]] false none none "u1-" 5 1).1
      (by decide),
   (c4_extension_allowlist ⟨[("keep", [9])], []⟩ "notes.txt" [[1]] false none none
      "u2-" 5 2).2 (by decide)⟩

/-- C5 counterexample: a write failure after 2 bytes of `a.mp4` were
written leaves the partially written file `u.mp4` in storage — the
handler has no cleanup path — while the caller receives the failure.
The claim's "the partially written file is removed" is false. -/
theorem c5_counterexample :
    upload_video ⟨[], []⟩ "a.mp4" [[1, 2]] true none none "u" 7 1
      = ({ files := [("u.mp4", [1, 2])], db := [] }, .error 500) ∧
    ({ files := [("u.mp4", [1, 2])], db := [] } : UploadState).files ≠ [] := by
  constructor
  · rfl
  · decide

/-- C5 (amended): when a write fails mid-stream during chunked ingestion,
the caller receives an ingestion failure (the exception surfaces, no
success and no record is created), but the partially written file is NOT
removed: it remains in storage under the allocated name. -/
theorem c5_write_failure_amended (st : UploadState) (filename : String)
    (chunks : List (List Nat)) (title description : Option String)
    (uniq : String) (uid new_id : Nat)
    (hext : allowed_extensions.contains (lowerString (pathSuffix filename)) = true) :
    upload_video st filename chunks true title description uniq uid new_id
      = ({ st with
            files := (uniq ++ lowerString (pathSuffix filename), chunks.flatten) :: st.files },
         .error 500) := by
  simp only [upload_video, hext]
  rfl

/-- C5 witness: the amended claim at a concrete failing upload. -/
theorem c5_write_failure_amended_witness :
    upload_video ⟨[("old", [3])], []⟩ "b.mkv" [[4], [5, 6]] true none none "w" 2 9
      = ({ files := [("w.mkv", [4, 5, 6]), ("old", [3])], db := [] }, .error 500) := by
  have h := c5_write_failure_amended ⟨[("old", [3])], []⟩ "b.mkv" [[4], [5, 6]]
    none none "w" 2 9 (by decide)
  exact h

/-- C6: for a successfully ingested upload, the record stored in the
database carries `file_size` equal to the sum of the lengths of all
chunks read from the input stream (the observed byte count, which is
also the length of the bytes written to storage). -/
theorem c6_file_size_observed (st : UploadState) (filename : String)
    (chunks : List (List Nat)) (title description : Option String)
    (uniq : String) (uid new_id : Nat)
    (hext : allowed_extensions.contains (lowerString (pathSuffix filename)) = true) :
    ∃ rec,
      upload_video st filename chunks false title description uniq uid new_id
        = ({ files := (uniq ++ lowerString (pathSuffix filename), chunks.flatten) :: st.files,
             db := st.db ++ [rec] }, .ok new_id) ∧
      rec.file_size = (chunks.map List.length).sum ∧
      rec.file_size = chunks.flatten.length := by
  refine ⟨mkVideoRec filename (uniq ++ lowerString (pathSuffix filename))
    chunks.flatten.length description title uid new_id, ?_, ?_, ?_⟩
  · simp only [upload_video, hext]
    rfl
  · simp [mkVideoRec]
  · rfl

/-- C6 witness: three chunks of sizes 2, 0 and 1 give `file_size = 3`. -/
theorem c6_file_size_observed_witness :
    ∃ rec,
      upload_video ⟨[], []⟩ "c.webm" [[1, 2], [], [3]] false none none "q" 4 11
        = ({ files := [("q.webm", [1, 2, 3])], db := [rec] }, .ok 11) ∧
      rec.file_size = ([[1, 2], [], [3]].map List.length).sum ∧
      rec.file_size = ([[1, 2], [], [3]] : List (List Nat)).flatten.length := by
  have h := c6_file_size_observed ⟨[], []⟩ "c.webm" [[1, 2], [], [3]] none none
    "q" 4 11 (by decide)
  simpa using h

/-! ### Claims C7-C8: processing state machine -/

/-- The character data of a failure status always starts with 'f'. -/
theorem failedStatus_data (e : String) :
    (failedStatus e).data
      = 'f' :: 'a' :: 'i' :: 'l' :: 'e' :: 'd' :: ':' :: ' ' :: e.data := by
  rw [failedStatus, String.data_append]
  rfl

/-- No failure diagnostic is the string "completed". -/
theorem failedStatus_ne_completed (e : String) : failedStatus e ≠ "completed" := by
  intro h
  have h2 := congrArg String.data h
  rw [failedStatus_data] at h2
  have h3 : "completed".data = 'c' :: "ompleted".data := rfl
  rw [h3] at h2
  injection h2 with h4 _
  exact absurd h4 (by decide)

/-- No failure diagnostic is the string "pending". -/
theorem failedStatus_ne_pending (e : String) : failedStatus e ≠ "pending" := by
  intro h
  have h2 := congrArg String.data h
  rw [failedStatus_data] at h2
  have h3 : "pending".data = 'p' :: "ending".data := rfl
  rw [h3] at h2
  injection h2 with h4 _
  exact absurd h4 (by decide)

/-- No failure diagnostic is the string "processing". -/
theorem failedStatus_ne_processing (e : String) : failedStatus e ≠ "processing" := by
  intro h
  have h2 := congrArg String.data h
  rw [failedStatus_data] at h2
  have h3 : "processing".data = 'p' :: "rocessing".data := rfl
  rw [h3] at h2
  injection h2 with h4 _
  exact absurd h4 (by decide)

/-- At observation time 0 the record is the freshly created one. -/
theorem recordAt_zero (v : VideoRec) (failure : Option String) :
    recordAt v failure 0 = v := by
  rcases failure with _ | e <;> rfl

/-- At observation time 1 the record carries the `processing` commit. -/
theorem recordAt_one (v : VideoRec) (failure : Option String) :
    recordAt v failure 1 = { v with processing_status := "processing" } := by
  rcases failure with _ | e <;> rfl

/-- From time 2 on, the record stays in its final committed state. -/
theorem recordAt_ge_two (v : VideoRec) (failure : Option String) (t : Nat)
    (ht : 2 ≤ t) : recordAt v failure t = recordAt v failure 2 := by
  have hl : (observableStates v failure).length = 3 := by
    rcases failure with _ | e <;> rfl
  simp only [recordAt, hl]
  have hm : min t (3 - 1) = 2 := by omega
  have hm2 : min 2 (3 - 1) = 2 := by omega
  rw [hm, hm2]

/-- Updating the status field sets exactly the status field. -/
theorem status_update (v : VideoRec) (s : String) :
    ({ v with processing_status := s } : VideoRec).processing_status = s := rfl

/-- C7: every committed state an observer can read satisfies the
invariant: if `processing_status = "completed"` then duration and
thumbnail reference are both set — the worker assigns them in the same
commit that marks completion. -/
theorem c7_completed_implies_enriched (v : VideoRec) (failure : Option String)
    (hp : v.processing_status = "pending") :
    ∀ s ∈ observableStates v failure, s.processing_status = "completed" →
      s.duration.isSome = true ∧ s.thumbnail_path.isSome = true := by
  intro s hs hc
  rcases failure with _ | e <;>
    simp only [observableStates, process_video, List.mem_cons,
      List.not_mem_nil, or_false] at hs
  · rcases hs with rfl | rfl | rfl
    · rw [hp] at hc
      exact absurd hc (by decide)
    · exact absurd (show "processing" = "completed" from hc) (by decide)
    · exact ⟨rfl, rfl⟩
  · rcases hs with rfl | rfl | rfl
    · rw [hp] at hc
      exact absurd hc (by decide)
    · exact absurd (show "processing" = "completed" from hc) (by decide)
    · exact absurd (show failedStatus e = "completed" from hc)
        (failedStatus_ne_completed e)

/-- C7 witness: for a concrete record whose worker run succeeds, the
completed state carries a duration and a thumbnail. -/
theorem c7_completed_implies_enriched_witness :
    ((⟨1, "t", none, "m.mp4", "m.mp4", 2, some 120,
        some ("thumbnails/" ++ "m.mp4" ++ ".jpg"), true, "completed", 0, 3⟩ :
      VideoRec)).duration.isSome = true ∧
    ((⟨1, "t", none, "m.mp4", "m.mp4", 2, some 120,
        some ("thumbnails/" ++ "m.mp4" ++ ".jpg"), true, "completed", 0, 3⟩ :
      VideoRec)).thumbnail_path.isSome = true :=
  c7_completed_implies_enriched
    ⟨1, "t", none, "m.mp4", "m.mp4", 2, none, none, false, "pending", 0, 3⟩
    none rfl _ (by decide) rfl

/-- C8: status transitions are monotone.  Once the record observed at
time `t` is in a terminal status (`completed` or a failure diagnostic),
every later observation `u ≥ t` shows the very same status; in
particular the record never returns to `pending` or `processing`. -/
theorem c8_status_monotone (v : VideoRec) (failure : Option String)
    (hp : v.processing_status = "pending") (t u : Nat) (htu : t ≤ u)
    (hterm : terminalStatus (recordAt v failure t).processing_status) :
    terminalStatus (recordAt v failure u).processing_status ∧
    (recordAt v failure u).processing_status
      = (recordAt v failure t).processing_status ∧
    (recordAt v failure u).processing_status ≠ "pending" ∧
    (recordAt v failure u).processing_status ≠ "processing" := by
  rcases Nat.lt_or_ge t 2 with hlt | hge
  · exfalso
    have h01 : t = 0 ∨ t = 1 := by omega
    rcases h01 with rfl | rfl
    · rw [recordAt_zero, hp] at hterm
      rcases hterm with hc | ⟨e, he⟩
      · exact absurd hc (by decide)
      · exact failedStatus_ne_pending e he.symm
    · rw [recordAt_one, status_update] at hterm
      rcases hterm with hc | ⟨e, he⟩
      · exact absurd hc (by decide)
      · exact failedStatus_ne_processing e he.symm
  · have hut : recordAt v failure u = recordAt v failure t := by
      rw [recordAt_ge_two v failure t hge,
        recordAt_ge_two v failure u (le_trans hge htu)]
    rw [hut]
    refine ⟨hterm, rfl, ?_, ?_⟩
    · rw [recordAt_ge_two v failure t hge]
      rcases failure with _ | e
      · have hst : (recordAt v none 2).processing_status = "completed" := rfl
        rw [hst]
        decide
      · have hst : (recordAt v (some e) 2).processing_status = failedStatus e := rfl
        rw [hst]
        exact failedStatus_ne_pending e
    · rw [recordAt_ge_two v failure t hge]
      rcases failure with _ | e
      · have hst : (recordAt v none 2).processing_status = "completed" := rfl
        rw [hst]
        decide
      · have hst : (recordAt v (some e) 2).processing_status = failedStatus e := rfl
        rw [hst]
        exact failedStatus_ne_processing e

/-- C8 witness: a successfully processed record is terminal at time 2 and
keeps the status "completed" at time 5. -/
theorem c8_status_monotone_witness :
    terminalStatus
      ((recordAt
        ⟨1, "t", none, "m.mp4", "m.mp4", 2, none, none, false, "pending", 0, 3⟩
        none 5).processing_status) ∧
    ((recordAt
        ⟨1, "t", none, "m.mp4", "m.mp4", 2, none, none, false, "pending", 0, 3⟩
        none 5).processing_status)
      = ((recordAt
        ⟨1, "t", none, "m.mp4", "m.mp4", 2, none, none, false, "pending", 0, 3⟩
        none 2).processing_status) ∧
    ((recordAt
        ⟨1, "t", none, "m.mp4", "m.mp4", 2, none, none, false, "pending", 0, 3⟩
        none 5).processing_status) ≠ "pending" ∧
    ((recordAt
        ⟨1, "t", none, "m.mp4", "m.mp4", 2, none, none, false, "pending", 0, 3⟩
        none 5).processing_status) ≠ "processing" :=
  c8_status_monotone
    ⟨1, "t", none, "m.mp4", "m.mp4", 2, none, none, false, "pending", 0, 3⟩
    none rfl 2 5 (by norm_num) (Or.inl rfl)

/-! ### Claims C9-C10: deletion and metadata query -/

/-- C9 counterexample: deleting video 1 of user 7 succeeds and removes
record and file; deleting it again on the resulting (empty) state returns
a 404 error, not a success — the second call does NOT report success. -/
theorem c9_counterexample :
    delete_video
      ⟨[("x.mp4", [1])],
       [⟨1, "t", none, "x.mp4", "x.mp4", 1, none, none, false, "pending", 0, 7⟩]⟩ 1 7
      = (⟨[], []⟩, .ok "Video deleted successfully") ∧
    delete_video ⟨[], []⟩ 1 7 = (⟨[], []⟩, .error 404) := by
  constructor
  · rfl
  · rfl

/-- C9 (amended): when the record exists, deletion succeeds regardless of
whether the backing file still exists (the half that exists is removed);
but when the record is absent — as on the second of two consecutive
deletes — the call fails with a 404 error and leaves the state unchanged,
rather than reporting success. -/
theorem c9_delete_amended (st : UploadState) (video_id uid : Nat) :
    (∀ video,
      st.db.find? (fun v => v.id == video_id && v.user_id == uid) = some video →
      (delete_video st video_id uid).2 = .ok "Video deleted successfully") ∧
    (st.db.find? (fun v => v.id == video_id && v.user_id == uid) = none →
      delete_video st video_id uid = (st, .error 404)) := by
  constructor
  · intro video hvf
    simp only [delete_video, hvf]
  · intro hvf
    simp only [delete_video, hvf]

/-- C9 witness: deletion with the backing file already gone still
succeeds; deletion with no record errors with 404. -/
theorem c9_delete_amended_witness :
    (delete_video
      ⟨[], [⟨1, "t", none, "y.mp4", "y.mp4", 1, none, none, false, "pending", 0, 7⟩]⟩
      1 7).2 = .ok "Video deleted successfully" ∧
    delete_video ⟨[("z.mp4", [2])], []⟩ 3 7 = (⟨[("z.mp4", [2])], []⟩, .error 404) :=
  ⟨(c9_delete_amended
      ⟨[], [⟨1, "t", none, "y.mp4", "y.mp4", 1, none, none, false, "pending", 0, 7⟩]⟩
      1 7).1 _ rfl,
   (c9_delete_amended ⟨[("z.mp4", [2])], []⟩ 3 7).2 rfl⟩

/-- C10: the metadata query is a pure read — it returns a snapshot of the
stored record's fields and leaves the database (hence every field of
every record, including views and processing_status) unchanged. -/
theorem c10_get_video_info_pure (db : List VideoRec) (video_id : Nat)
    (v : VideoRec) (hv : findVideo db video_id = some v) :
    (get_video_info db video_id).1 = db ∧
    (get_video_info db video_id).2
      = .ok { id := v.id, title := v.title, description := v.description,
              duration := v.duration, views := v.views,
              processed := v.processed } := by
  constructor
  · simp only [get_video_info]
    cases findVideo db video_id <;> rfl
  · simp only [get_video_info, hv]

/-- C10 witness: a concrete lookup returns the snapshot and the database
it started with. -/
theorem c10_get_video_info_pure_witness :
    (get_video_info
      [⟨5, "v", some "d", "n.mp4", "n.mp4", 9, some 8, some "p", true, "completed", 2, 7⟩]
      5).1
      = [⟨5, "v", some "d", "n.mp4", "n.mp4", 9, some 8, some "p", true, "completed", 2, 7⟩] ∧
    (get_video_info
      [⟨5, "v", some "d", "n.mp4", "n.mp4", 9, some 8, some "p", true, "completed", 2, 7⟩]
      5).2
      = .ok { id := 5, title := "v", description := some "d",
              duration := some 8, views := 2, processed := true } :=
  c10_get_video_info_pure
    [⟨5, "v", some "d", "n.mp4", "n.mp4", 9, some 8, some "p", true, "completed", 2, 7⟩]
    5 ⟨5, "v", some "d", "n.mp4", "n.mp4", 9, some 8, some "p", true, "completed", 2, 7⟩
    rfl

end VideoServer
